import Mathlib

/-!
Shallow embedding of the query execution and caching core of the go-mcp
server (src/main.go).  External command executions are modelled by an
`ExecResult` oracle passed to the functions that spawn them; everything
else (cache state, argument translation, error classification, response
shaping) is translated directly from the Go source.
-/

namespace GoMcp

/-- result of cmd.CombinedOutput: the combined stdout+stderr text, and
the textual rendering of the returned error (fmt %v), `none` when the
command exited zero. -/
structure ExecResult where
  out : String
  err : Option String
deriving DecidableEq

/-- cachedDoc struct from src/main.go. -/
structure cachedDoc where
  content : String
  timestamp : Nat
  byteSize : Nat
deriving DecidableEq

/-- the in-memory cache map[string]cachedDoc, modelled as an association
list whose first match is the binding. -/
abbrev Cache := List (String × cachedDoc)

/-- map assignment s.cache[k] = v: overwrites any previous binding. -/
def cacheSet (c : Cache) (k : String) (v : cachedDoc) : Cache :=
  (k, v) :: c.filter (fun kv => kv.1 != k)

/-- Go strings.Join with a separator: empty for the empty list, otherwise
the elements interleaved with the separator. -/
def goJoin (sep : String) : List String → String
  | [] => ""
  | [x] => x
  | x :: y :: ys => x ++ sep ++ goJoin sep (y :: ys)

/-- cache key built in runGoDoc: workingDir + "|" + strings.Join(args, "|"). -/
def cacheKey (workingDir : String) (args : List String) : String :=
  workingDir ++ "|" ++ goJoin "|" args

/-- Go strings.Contains as a Bool-valued substring test. -/
def strContains (s pat : String) : Bool :=
  decide (pat.data <:+: s.data)

/-- a single-quote character, used inside the Go message literals. -/
def sq : String := String.singleton (Char.ofNat 39)

/-- package-not-found message of runGoDoc (first classifier branch);
embeds the captured output after "Error details: ". -/
def pkgNotFoundMsg (errStr : String) : String :=
  "Package not found. Suggestions:\n" ++
  "1. For standard library packages, use just the package name (e.g., " ++
    sq ++ "io" ++ sq ++ ", " ++ sq ++ "net/http" ++ sq ++ ")\n" ++
  "2. For external packages, ensure they are imported in the module\n" ++
  "3. For local packages, provide the relative path (e.g., " ++
    sq ++ "./pkg" ++ sq ++ ") or absolute path\n" ++
  "4. Check for typos in the package name\n" ++
  "Error details: " ++ errStr

/-- symbol-not-found message of runGoDoc (second classifier branch);
embeds only the Go error value (fmt %v), not the captured output. -/
def symbolNotFoundMsg (err : String) : String :=
  "Symbol not found. Suggestions:\n" ++
  "1. Check if the symbol name is correct (case-sensitive)\n" ++
  "2. Use -u flag to see unexported symbols\n" ++
  "3. Use -all flag to see all package documentation\n" ++
  "Error: " ++ err

/-- build-constraints message of runGoDoc (third classifier branch);
embeds only the Go error value (fmt %v), not the captured output. -/
def buildConstraintsMsg (err : String) : String :=
  "No Go files found for current platform. Suggestions:\n" ++
  "1. Try using -all flag to see all package files\n" ++
  "2. Check if you need to set GOOS/GOARCH environment variables\n" ++
  "Error: " ++ err

/-- fallback message of runGoDoc (fourth classifier branch). -/
def genericGoDocErrMsg (err errStr : String) : String :=
  "go doc error: " ++ err ++ "\noutput: " ++ errStr ++
  "\nTip: Use -h flag to see all available options"

/-- the error-classification cascade of runGoDoc, in source order. -/
def classifyGoDocError (err errStr : String) : String :=
  if strContains errStr "no such package" || strContains errStr "is not in std" then
    pkgNotFoundMsg errStr
  else if strContains errStr "no such symbol" then
    symbolNotFoundMsg err
  else if strContains errStr "build constraints exclude all Go files" then
    buildConstraintsMsg err
  else
    genericGoDocErrMsg err errStr

/-- the empty-output message of runGoDoc. -/
def noDocMsg (args : List String) (workingDir : String) : String :=
  "No documentation found by running the command: go doc " ++
  goJoin " " args ++ " from the directory: " ++ workingDir

/-- runGoDoc from src/main.go.  The cache lookup that would short-circuit
the execution is commented out in the source (main.go lines 161-166), so
this function unconditionally consults the executor; the Bool in the
result records whether exec.Command was run (always true).  On a failed
execution the classified error is returned and the cache is untouched;
on zero exit with empty output the no-documentation error is returned
and the cache is untouched; otherwise the output is stored under the
cache key and returned. -/
def runGoDoc (cache : Cache) (now : Nat) (workingDir : String)
    (args : List String) (exec : ExecResult) :
    Except String String × Cache × Bool :=
  match exec.err with
  | some e => (Except.error (classifyGoDocError e exec.out), cache, true)
  | none =>
    if exec.out = "" then
      (Except.error (noDocMsg args workingDir), cache, true)
    else
      (Except.ok exec.out,
       cacheSet cache (cacheKey workingDir args)
         ⟨exec.out, now, exec.out.length⟩,
       true)

/-- a dynamic value of the untyped argument bag (Go interface\x7b\x7d):
a string, a []string, a []interface\x7b\x7d, or any other dynamic type. -/
inductive JVal where
  | str : String → JVal
  | strArr : List String → JVal
  | arr : List JVal → JVal
  | other : JVal

/-- the map[string]interface\x7b\x7d argument bag. -/
abbrev ArgBag := List (String × JVal)

/-- map lookup m[key]. -/
def lookupArg (m : ArgBag) (k : String) : Option JVal :=
  match m with
  | [] => none
  | (k2, v) :: rest => if k2 = k then some v else lookupArg rest k

/-- removal of a key, for stating absent-key behaviour. -/
def eraseKey (k : String) (m : ArgBag) : ArgBag :=
  m.filter (fun kv => kv.1 != k)

/-- conversion of a []interface\x7b\x7d to []string element by element;
fails when any element is not a string. -/
def allStrings : List JVal → Option (List String)
  | [] => some []
  | JVal.str s :: rest => (allStrings rest).map (fun t => s :: t)
  | _ :: _ => none

/-- the value-level conversion performed by getMapSliceAnyString: a
[]string is taken as is, a []interface\x7b\x7d is converted element-wise,
anything else fails. -/
def sliceAnyString : JVal → Option (List String)
  | JVal.strArr a => some a
  | JVal.arr a => allStrings a
  | _ => none

/-- getMapSliceAnyString from src/main.go: lookup then conversion; a
missing key, a wrong-typed value, and a non-string element all yield
failure (ok = false). -/
def getMapSliceAnyString (m : ArgBag) (key : String) : Option (List String) :=
  (lookupArg m key).bind sliceAnyString

/-- the value-level type assertion v.(string). -/
def asGoString : JVal → Option String
  | JVal.str s => some s
  | _ => none

/-- getString from src/main.go. -/
def getString (m : ArgBag) (key : String) : Option String :=
  (lookupArg m key).bind asGoString

/-- argument construction of handleGoDoc: caller flags first (when the
getter succeeds with a non-empty list), then the target symbol/path
(when the getter succeeds with a non-empty string). -/
def buildGoDocArgs (m : ArgBag) : List String :=
  let flagsPart : List String :=
    match getMapSliceAnyString m "cmd_flags" with
    | some tmp => if 0 < tmp.length then tmp else []
    | none => []
  let targetPart : List String :=
    match getString m "pkgSymMethodOrField" with
    | some p => if p = "" then [] else [p]
    | none => []
  flagsPart ++ targetPart

/-- the text content blocks of a tool response. -/
structure TextContent where
  type : String
  text : String
deriving DecidableEq

/-- mcp.CallToolResult as used by this program. -/
structure CallToolResult where
  content : List TextContent
  isError : Bool
deriving DecidableEq

/-- errResponse from src/main.go (for a present error). -/
def errResponse (e : String) : CallToolResult :=
  { content := [{ type := "text", text := "Error: " ++ e }], isError := true }

/-- body of handleGoDoc: translate the arguments, run runGoDoc, wrap the
outcome; an empty success text would be replaced by the fixed
placeholder. -/
def handleGoDocBody (workdir : String) (cache : Cache) (now : Nat)
    (arguments : ArgBag) (exec : ExecResult) : CallToolResult × Cache :=
  let cmdArgs := buildGoDocArgs arguments
  match runGoDoc cache now workdir cmdArgs exec with
  | (Except.error e, c, _) => (errResponse e, c)
  | (Except.ok doc, c, _) =>
    let doc2 := if doc = "" then "No documentation found by go-mcp" else doc
    ({ content := [{ type := "text", text := doc2 }], isError := false }, c)

/-- handleGoDoc from src/main.go including its deferred recover: `fault`
models a runtime panic raised while handling the request (rendered with
fmt %v); the recover converts it into an error-flagged response instead
of letting it propagate. -/
def handleGoDoc (workdir : String) (cache : Cache) (now : Nat)
    (arguments : ArgBag) (exec : ExecResult) (fault : Option String) :
    CallToolResult × Cache :=
  match fault with
  | some r =>
    ({ content := [{ type := "text", text := "Error: " ++ r }], isError := true },
     cache)
  | none => handleGoDocBody workdir cache now arguments exec

/-- argument construction of handleGoList: flags (or empty on getter
failure), then the package patterns when the getter succeeds. -/
def buildGoListArgs (m : ArgBag) : List String :=
  let cmdArgs : List String :=
    match getMapSliceAnyString m "cmd_flags" with
    | some a => a
    | none => []
  match getMapSliceAnyString m "packages" with
  | some pkgs => cmdArgs ++ pkgs
  | none => cmdArgs

/-- handleGoList from src/main.go: returns the argument sequence handed
to the executor together with the outcome; a failed execution is
returned as a Go error value (Except.error), not as a response, and a
zero-exit execution yields a success-flagged response carrying the
output verbatim. -/
def handleGoList (workdir : String) (arguments : ArgBag) (exec : ExecResult) :
    List String × Except String CallToolResult :=
  let cmdArgs := buildGoListArgs arguments
  (cmdArgs,
   match exec.err with
   | some e => Except.error ("go list error: " ++ e ++ "\noutput: " ++ exec.out)
   | none =>
     Except.ok { content := [{ type := "text", text := exec.out }], isError := false })

/-- one documentation request together with the outcome of its external
execution and the time it was handled. -/
structure DocRequest where
  now : Nat
  workingDir : String
  args : List String
  exec : ExecResult
deriving DecidableEq

/-- the cache reached by handling a list of requests starting from the
empty cache (the head request is handled last). -/
def runTrace : List DocRequest → Cache
  | [] => []
  | r :: rest => (runGoDoc (runTrace rest) r.now r.workingDir r.args r.exec).2.1

/-- a substring witness makes strContains true. -/
theorem strContains_of_infix (s t : String) (h : t.data <:+: s.data) :
    strContains s t = true :=
  decide_eq_true h

/-- C1: with the cache lookup commented out in the source, a second
request with the same working directory and argument sequence, sixty
seconds after a successful execution, still consults the executor
(invoked flag true) and returns the fresh execution's output instead of
the cached content. -/
theorem cache_lookup_disabled_reexecutes :
    (runGoDoc (runGoDoc [] 0 "/w" ["io"] { out := "old docs", err := none }).2.1
        60 "/w" ["io"] { out := "new docs", err := none }).2.2 = true ∧
    (runGoDoc (runGoDoc [] 0 "/w" ["io"] { out := "old docs", err := none }).2.1
        60 "/w" ["io"] { out := "new docs", err := none }).1 = Except.ok "new docs" ∧
    (runGoDoc (runGoDoc [] 0 "/w" ["io"] { out := "old docs", err := none }).2.1
        60 "/w" ["io"] { out := "new docs", err := none }).1 ≠ Except.ok "old docs" := by
  refine ⟨rfl, rfl, ?_⟩
  intro h
  simp [runGoDoc] at h

/-- C2: a failed execution (non-zero exit, or zero exit with empty
output) leaves the cache untouched; consequently every entry of any
cache reachable from the empty one records the output of a zero-exit,
non-empty-output execution. -/
theorem runGoDoc_never_caches_failures :
    (∀ (c : Cache) (now : Nat) (wd : String) (args : List String) (exec : ExecResult),
        exec.err.isSome = true ∨ exec.out = "" →
        (runGoDoc c now wd args exec).2.1 = c) ∧
    (∀ (reqs : List DocRequest) (k : String) (v : cachedDoc),
        (k, v) ∈ runTrace reqs →
        ∃ r, r ∈ reqs ∧ r.exec.err = none ∧ r.exec.out ≠ "" ∧
          v.content = r.exec.out ∧ v.timestamp = r.now ∧
          v.byteSize = r.exec.out.length) := by
  constructor
  · intro c now wd args exec h
    match hE : exec.err with
    | some e => simp [runGoDoc, hE]
    | none =>
      rcases h with h | h
      · rw [hE] at h; simp at h
      · simp [runGoDoc, hE, h]
  · intro reqs
    induction reqs with
    | nil => intro k v hv; simp [runTrace] at hv
    | cons r rest ih =>
      intro k v hv
      match hE : r.exec.err with
      | some e =>
        rw [runTrace] at hv
        simp [runGoDoc, hE] at hv
        obtain ⟨r2, hmem, hrest⟩ := ih k v hv
        exact ⟨r2, List.mem_cons_of_mem r hmem, hrest⟩
      | none =>
        by_cases hO : r.exec.out = ""
        · rw [runTrace] at hv
          simp [runGoDoc, hE, hO] at hv
          obtain ⟨r2, hmem, hrest⟩ := ih k v hv
          exact ⟨r2, List.mem_cons_of_mem r hmem, hrest⟩
        · rw [runTrace] at hv
          simp [runGoDoc, hE, hO, cacheSet] at hv
          rcases hv with ⟨hk, hvv⟩ | hv2
          · exact ⟨r, List.mem_cons_self r rest, hE, hO, by rw [hvv], by rw [hvv],
              by rw [hvv]⟩
          · obtain ⟨r2, hmem, hrest⟩ := ih k v hv2.1
            exact ⟨r2, List.mem_cons_of_mem r hmem, hrest⟩

/-- a closed instance of runGoDoc_never_caches_failures at a concrete
failing execution. -/
theorem runGoDoc_never_caches_failures_witness :
    (runGoDoc [] 5 "/w" ["io"] { out := "boom", err := some "exit status 1" }).2.1 =
      ([] : Cache) :=
  runGoDoc_never_caches_failures.1 [] 5 "/w" ["io"]
    { out := "boom", err := some "exit status 1" } (Or.inl rfl)

/-- C3: the documentation handler passes the caller flags first, in
caller order, then the non-empty target; in particular the request
with target fmt.Println and flags [-src] yields [-src, fmt.Println]. -/
theorem goDocArgs_flags_then_target :
    (∀ (m : ArgBag) (flags : List String) (p : String),
        getMapSliceAnyString m "cmd_flags" = some flags → flags ≠ [] →
        getString m "pkgSymMethodOrField" = some p → p ≠ "" →
        buildGoDocArgs m = flags ++ [p]) ∧
    buildGoDocArgs [("pkgSymMethodOrField", JVal.str "fmt.Println"),
        ("cmd_flags", JVal.strArr ["-src"])] = ["-src", "fmt.Println"] := by
  constructor
  · intro m flags p hf hfne hp hpne
    simp [buildGoDocArgs, hf, hp, hpne, List.length_pos.mpr hfne]
  · rfl

/-- a closed instance of goDocArgs_flags_then_target on the documented
scenario. -/
theorem goDocArgs_flags_then_target_witness :
    buildGoDocArgs [("pkgSymMethodOrField", JVal.str "fmt.Println"),
        ("cmd_flags", JVal.strArr ["-src"])] = ["-src"] ++ ["fmt.Println"] :=
  goDocArgs_flags_then_target.1 _ ["-src"] "fmt.Println" rfl (by decide) rfl (by decide)

/-- C6: a zero-exit execution with empty output yields the
no-documentation error, does not touch the cache, and surfaces through
the handler as an error-flagged response carrying that message. -/
theorem empty_output_error_not_cached (wd : String) (c : Cache) (now : Nat)
    (m : ArgBag) (args : List String) :
    runGoDoc c now wd args { out := "", err := none } =
      (Except.error (noDocMsg args wd), c, true) ∧
    strContains (noDocMsg args wd) "No documentation found" = true ∧
    (handleGoDoc wd c now m { out := "", err := none } none).1 =
      errResponse (noDocMsg (buildGoDocArgs m) wd) ∧
    (handleGoDoc wd c now m { out := "", err := none } none).2 = c := by
  refine ⟨by simp [runGoDoc], ?_, ?_, ?_⟩
  · apply strContains_of_infix
    have h1 : ("No documentation found" : String).data <+:
        ("No documentation found by running the command: go doc " : String).data := by
      decide
    have h2 : ("No documentation found by running the command: go doc " : String).data <+:
        (noDocMsg args wd).data := by
      simp [noDocMsg, String.data_append, List.append_assoc]
    exact (h1.trans h2).isInfix
  · simp [handleGoDoc, handleGoDocBody, runGoDoc]
  · simp [handleGoDoc, handleGoDocBody, runGoDoc]

/-- C7 counterexample: on a failed execution the listing handler returns
a Go error value to the protocol layer instead of a caller-facing
error-flagged response. -/
theorem goList_failure_propagates :
    (handleGoList "/w" [] { out := "boom", err := some "exit status 1" }).2 =
      Except.error "go list error: exit status 1\noutput: boom" := rfl

/-- C7 amended: the documentation handler, including its panic recovery,
always returns a single text content block, error-flagged exactly when a
panic occurred, the execution failed, or the output was empty. -/
theorem goDoc_failures_become_error_responses (wd : String) (c : Cache) (now : Nat)
    (m : ArgBag) (exec : ExecResult) (fault : Option String) :
    (handleGoDoc wd c now m exec fault).1.content.length = 1 ∧
    ((handleGoDoc wd c now m exec fault).1.isError = true ↔
      (fault.isSome = true ∨ exec.err.isSome = true ∨ exec.out = "")) := by
  match fault with
  | some r => simp [handleGoDoc]
  | none =>
    match hE : exec.err with
    | some e => simp [handleGoDoc, handleGoDocBody, runGoDoc, hE, errResponse]
    | none =>
      by_cases hO : exec.out = ""
      · simp [handleGoDoc, handleGoDocBody, runGoDoc, hE, hO, errResponse]
      · simp [handleGoDoc, handleGoDocBody, runGoDoc, hE, hO]

/-- C8: a zero-exit listing execution is always wrapped as a
success-flagged response whose single text block is the output verbatim,
empty or not; the scenario bag with packages [./...] yields the argument
sequence [./...]. -/
theorem goList_success_returns_output_verbatim (wd : String) (m : ArgBag)
    (out : String) :
    (handleGoList wd m { out := out, err := none }).2 =
      Except.ok { content := [{ type := "text", text := out }], isError := false } ∧
    (handleGoList wd [("packages", JVal.strArr ["./..."])]
        { out := out, err := none }).1 = ["./..."] := by
  exact ⟨rfl, rfl⟩

/-- C10: a success-flagged documentation response carries exactly the
raw non-empty execution output, so the fixed placeholder for an empty
success text is never substituted. -/
theorem goDoc_success_text_nonempty (wd : String) (c : Cache) (now : Nat)
    (m : ArgBag) (exec : ExecResult)
    (h : (handleGoDoc wd c now m exec none).1.isError = false) :
    (handleGoDoc wd c now m exec none).1.content =
      [{ type := "text", text := exec.out }] ∧ exec.out ≠ "" := by
  match hE : exec.err with
  | some e =>
    exfalso
    simp [handleGoDoc, handleGoDocBody, runGoDoc, hE, errResponse] at h
  | none =>
    by_cases hO : exec.out = ""
    · exfalso
      simp [handleGoDoc, handleGoDocBody, runGoDoc, hE, hO, errResponse] at h
    · exact ⟨by simp [handleGoDoc, handleGoDocBody, runGoDoc, hE, hO], hO⟩

/-- a closed instance of goDoc_success_text_nonempty at a concrete
successful execution. -/
theorem goDoc_success_text_nonempty_witness :
    (handleGoDoc "/w" [] 0 [] { out := "docs", err := none } none).1.content =
      [{ type := "text", text := "docs" }] ∧ ("docs" : String) ≠ "" :=
  goDoc_success_text_nonempty "/w" [] 0 [] { out := "docs", err := none } rfl

set_option maxRecDepth 8192 in
/-- C4 counterexample: a failed execution whose output reports a missing
symbol is classified by the second branch, whose enriched message embeds
only the exit error and not the captured output text. -/
theorem classifier_drops_output_on_symbol_branch :
    strContains (classifyGoDocError "exit status 1" "no such symbol Foo")
      "no such symbol Foo" = false := by decide

/-- C4 amended: the package-not-found branch and the unclassified
fallback branch embed the captured output verbatim in the enriched
message. -/
theorem classifier_preserves_output_pkg_and_generic (e errStr : String)
    (h : (strContains errStr "no such package" ||
          strContains errStr "is not in std") = true ∨
         ((strContains errStr "no such package" ||
           strContains errStr "is not in std") = false ∧
          strContains errStr "no such symbol" = false ∧
          strContains errStr "build constraints exclude all Go files" = false)) :
    strContains (classifyGoDocError e errStr) errStr = true := by
  rcases h with h | ⟨h1, h2, h3⟩
  · rw [show classifyGoDocError e errStr = pkgNotFoundMsg errStr by
      simp [classifyGoDocError, h]]
    apply strContains_of_infix
    simp only [pkgNotFoundMsg, String.data_append]
    exact (List.suffix_append _ _).isInfix
  · rw [show classifyGoDocError e errStr = genericGoDocErrMsg e errStr by
      simp [classifyGoDocError, h1, h2, h3]]
    apply strContains_of_infix
    simp only [genericGoDocErrMsg, String.data_append]
    exact List.infix_append _ _ _

/-- a closed instance of classifier_preserves_output_pkg_and_generic on
a package-not-found output. -/
theorem classifier_preserves_output_pkg_and_generic_witness :
    strContains (classifyGoDocError "exit status 1" "package foo is not in std")
      "package foo is not in std" = true :=
  classifier_preserves_output_pkg_and_generic "exit status 1"
    "package foo is not in std" (Or.inl (by decide))

/-- erasing a key makes its lookup fail. -/
theorem lookupArg_eraseKey_self (m : ArgBag) (k : String) :
    lookupArg (eraseKey k m) k = none := by
  induction m with
  | nil => rfl
  | cons kv rest ih =>
    obtain ⟨k2, v⟩ := kv
    by_cases hk : k2 = k
    · simpa [eraseKey, List.filter_cons, hk] using ih
    · simpa [eraseKey, List.filter_cons, hk, lookupArg] using ih

/-- erasing one key leaves lookups of other keys unchanged. -/
theorem lookupArg_eraseKey_ne (m : ArgBag) (k k2 : String) (hne : k2 ≠ k) :
    lookupArg (eraseKey k m) k2 = lookupArg m k2 := by
  induction m with
  | nil => rfl
  | cons kv rest ih =>
    obtain ⟨k3, v⟩ := kv
    by_cases hk : k3 = k
    · have hk2 : k ≠ k2 := fun hx => hne hx.symm
      simpa [eraseKey, List.filter_cons, hk, lookupArg, hk2] using ih
    · by_cases hk3 : k3 = k2
      · simp [eraseKey, List.filter_cons, hk, lookupArg, hk3, hne]
      · simpa [eraseKey, List.filter_cons, hk, lookupArg, hk3] using ih

/-- C9: a wrong-typed value under a recognized key is treated exactly as
an absent key: the translated argument sequences and the documentation
handler response agree with those of the bag with the key removed. -/
theorem wrong_typed_fields_treated_as_absent (m : ArgBag) (v : JVal) :
    (sliceAnyString v = none →
      buildGoDocArgs (("cmd_flags", v) :: m) =
        buildGoDocArgs (eraseKey "cmd_flags" m) ∧
      buildGoListArgs (("cmd_flags", v) :: m) =
        buildGoListArgs (eraseKey "cmd_flags" m) ∧
      buildGoListArgs (("packages", v) :: m) =
        buildGoListArgs (eraseKey "packages" m) ∧
      (∀ (wd : String) (c : Cache) (now : Nat) (exec : ExecResult),
        handleGoDoc wd c now (("cmd_flags", v) :: m) exec none =
          handleGoDoc wd c now (eraseKey "cmd_flags" m) exec none)) ∧
    (asGoString v = none →
      buildGoDocArgs (("pkgSymMethodOrField", v) :: m) =
        buildGoDocArgs (eraseKey "pkgSymMethodOrField" m)) := by
  constructor
  · intro hs
    have hflags : getMapSliceAnyString (("cmd_flags", v) :: m) "cmd_flags" =
        getMapSliceAnyString (eraseKey "cmd_flags" m) "cmd_flags" := by
      simp [getMapSliceAnyString, lookupArg, lookupArg_eraseKey_self, hs]
    have htarget : getString (("cmd_flags", v) :: m) "pkgSymMethodOrField" =
        getString (eraseKey "cmd_flags" m) "pkgSymMethodOrField" := by
      have hne : ("cmd_flags" : String) ≠ "pkgSymMethodOrField" := by decide
      have hne2 : ("pkgSymMethodOrField" : String) ≠ "cmd_flags" := by decide
      simp [getString, lookupArg, hne, lookupArg_eraseKey_ne m "cmd_flags" _ hne2]
    have hdoc : buildGoDocArgs (("cmd_flags", v) :: m) =
        buildGoDocArgs (eraseKey "cmd_flags" m) := by
      rw [buildGoDocArgs, buildGoDocArgs, hflags, htarget]
    have hpk : getMapSliceAnyString (("cmd_flags", v) :: m) "packages" =
        getMapSliceAnyString (eraseKey "cmd_flags" m) "packages" := by
      have hne : ("cmd_flags" : String) ≠ "packages" := by decide
      have hne2 : ("packages" : String) ≠ "cmd_flags" := by decide
      simp [getMapSliceAnyString, lookupArg, hne,
        lookupArg_eraseKey_ne m "cmd_flags" _ hne2]
    have hfl2 : getMapSliceAnyString (("packages", v) :: m) "cmd_flags" =
        getMapSliceAnyString (eraseKey "packages" m) "cmd_flags" := by
      have hne : ("packages" : String) ≠ "cmd_flags" := by decide
      have hne2 : ("cmd_flags" : String) ≠ "packages" := by decide
      simp [getMapSliceAnyString, lookupArg, hne,
        lookupArg_eraseKey_ne m "packages" _ hne2]
    have hpk2 : getMapSliceAnyString (("packages", v) :: m) "packages" =
        getMapSliceAnyString (eraseKey "packages" m) "packages" := by
      simp [getMapSliceAnyString, lookupArg, lookupArg_eraseKey_self, hs]
    refine ⟨hdoc, ?_, ?_, ?_⟩
    · rw [buildGoListArgs, buildGoListArgs, hflags, hpk]
    · rw [buildGoListArgs, buildGoListArgs, hfl2, hpk2]
    · intro wd c now exec
      simp [handleGoDoc, handleGoDocBody, hdoc]
  · intro hs
    have htarget : getString (("pkgSymMethodOrField", v) :: m) "pkgSymMethodOrField" =
        getString (eraseKey "pkgSymMethodOrField" m) "pkgSymMethodOrField" := by
      simp [getString, lookupArg, lookupArg_eraseKey_self, hs]
    have hflags : getMapSliceAnyString (("pkgSymMethodOrField", v) :: m) "cmd_flags" =
        getMapSliceAnyString (eraseKey "pkgSymMethodOrField" m) "cmd_flags" := by
      have hne : ("pkgSymMethodOrField" : String) ≠ "cmd_flags" := by decide
      have hne2 : ("cmd_flags" : String) ≠ "pkgSymMethodOrField" := by decide
      simp [getMapSliceAnyString, lookupArg, hne,
        lookupArg_eraseKey_ne m "pkgSymMethodOrField" _ hne2]
    rw [buildGoDocArgs, buildGoDocArgs, hflags, htarget]

/-- a closed instance of wrong_typed_fields_treated_as_absent with a
non-list value under cmd_flags. -/
theorem wrong_typed_fields_treated_as_absent_witness :
    buildGoDocArgs [("cmd_flags", JVal.other)] =
      buildGoDocArgs (eraseKey "cmd_flags" []) :=
  ((wrong_typed_fields_treated_as_absent [] JVal.other).1 rfl).1

/-- the character-list counterpart of strings.Join with the pipe
separator. -/
def joinChar : List (List Char) → List Char
  | [] => []
  | [x] => x
  | x :: y :: ys => x ++ '|' :: joinChar (y :: ys)

/-- the data of the pipe join is the character-level pipe join of the
data of the elements. -/
theorem goJoin_pipe_data (l : List String) :
    (goJoin "|" l).data = joinChar (l.map String.data) := by
  match l with
  | [] => rfl
  | [x] => rfl
  | x :: y :: ys =>
    have ih := goJoin_pipe_data (y :: ys)
    have hp : ("|" : String).data = ['|'] := rfl
    simp [goJoin, joinChar, String.data_append, hp, ih]

/-- splitting at a separator absent from both leading segments is
unambiguous. -/
theorem sep_split {α : Type} {c : α} {l1 l2 r1 r2 : List α}
    (h1 : c ∉ l1) (h2 : c ∉ l2) (h : l1 ++ c :: r1 = l2 ++ c :: r2) :
    l1 = l2 ∧ r1 = r2 := by
  induction l1 generalizing l2 with
  | nil =>
    match l2 with
    | [] => simpa using h
    | b :: t =>
      exfalso
      simp only [List.nil_append, List.cons_append, List.cons.injEq] at h
      exact h2 (by rw [h.1]; exact List.mem_cons_self b t)
  | cons a t ih =>
    match l2 with
    | [] =>
      exfalso
      simp only [List.nil_append, List.cons_append, List.cons.injEq] at h
      exact h1 (by rw [← h.1]; exact List.mem_cons_self a t)
    | b :: t2 =>
      simp only [List.cons_append, List.cons.injEq] at h
      have h1b : c ∉ t := fun hm => h1 (List.mem_cons_of_mem a hm)
      have h2b : c ∉ t2 := fun hm => h2 (List.mem_cons_of_mem b hm)
      obtain ⟨he, hr⟩ := ih h1b h2b h.2
      exact ⟨by rw [h.1, he], hr⟩

/-- the pipe join is injective on lists of non-empty, pipe-free
character lists. -/
theorem joinChar_inj : ∀ (a1 a2 : List (List Char)),
    (∀ l ∈ a1, l ≠ [] ∧ ('|' : Char) ∉ l) →
    (∀ l ∈ a2, l ≠ [] ∧ ('|' : Char) ∉ l) →
    joinChar a1 = joinChar a2 → a1 = a2 := by
  intro a1
  induction a1 with
  | nil =>
    intro a2 h1 h2 h
    match a2 with
    | [] => rfl
    | [y] =>
      exfalso
      simp only [joinChar] at h
      exact (h2 y (List.mem_cons_self y [])).1 h.symm
    | y :: z :: zs =>
      exfalso
      simp only [joinChar] at h
      simp at h
  | cons x xs ih =>
    intro a2 h1 h2 h
    match a2 with
    | [] =>
      exfalso
      match xs with
      | [] =>
        simp only [joinChar] at h
        exact (h1 x (List.mem_cons_self x [])).1 h
      | w :: ws =>
        simp only [joinChar] at h
        simp at h
    | y :: ys =>
      match xs, ys with
      | [], [] =>
        simp only [joinChar] at h
        rw [h]
      | [], z :: zs =>
        exfalso
        simp only [joinChar] at h
        refine (h1 x (List.mem_cons_self x [])).2 ?_
        rw [h]
        exact List.mem_append_right y (List.mem_cons_self _ _)
      | w :: ws, [] =>
        exfalso
        simp only [joinChar] at h
        refine (h2 y (List.mem_cons_self y [])).2 ?_
        rw [← h]
        exact List.mem_append_right x (List.mem_cons_self _ _)
      | w :: ws, z :: zs =>
        simp only [joinChar] at h
        obtain ⟨hxy, hj⟩ := sep_split (h1 x (List.mem_cons_self x _)).2
          (h2 y (List.mem_cons_self y _)).2 h
        have h1b : ∀ l ∈ w :: ws, l ≠ [] ∧ ('|' : Char) ∉ l :=
          fun l hl => h1 l (List.mem_cons_of_mem x hl)
        have h2b : ∀ l ∈ z :: zs, l ≠ [] ∧ ('|' : Char) ∉ l :=
          fun l hl => h2 l (List.mem_cons_of_mem y hl)
        have htail := ih (z :: zs) h1b h2b hj
        rw [hxy, htail]

/-- the data of a cache key splits the working directory from the joined
arguments at the first pipe. -/
theorem cacheKey_data (d : String) (a : List String) :
    (cacheKey d a).data = d.data ++ '|' :: joinChar (a.map String.data) := by
  have hp : ("|" : String).data = ['|'] := rfl
  simp [cacheKey, String.data_append, hp, goJoin_pipe_data, List.append_assoc]

/-- C5 counterexample: two structurally different invocations produce
the same cache key when a component contains the pipe separator. -/
theorem cacheKey_collision :
    cacheKey "a" ["b", "c"] = cacheKey "a|b" ["c"] ∧
    ¬(("a" : String) = "a|b" ∧ (["b", "c"] : List String) = ["c"]) := by
  refine ⟨rfl, ?_⟩
  intro h
  exact absurd h.1 (by decide)

/-- C5 amended: equal components always give equal keys, and on
invocations whose working directory is pipe-free and whose arguments are
non-empty and pipe-free the key construction is injective. -/
theorem cacheKey_inj_of_sep_free (d1 d2 : String) (a1 a2 : List String)
    (hd1 : ('|' : Char) ∉ d1.data) (hd2 : ('|' : Char) ∉ d2.data)
    (ha1 : ∀ s ∈ a1, s ≠ "" ∧ ('|' : Char) ∉ s.data)
    (ha2 : ∀ s ∈ a2, s ≠ "" ∧ ('|' : Char) ∉ s.data) :
    cacheKey d1 a1 = cacheKey d2 a2 ↔ d1 = d2 ∧ a1 = a2 := by
  constructor
  · intro h
    have hdata : (cacheKey d1 a1).data = (cacheKey d2 a2).data := by rw [h]
    rw [cacheKey_data, cacheKey_data] at hdata
    obtain ⟨hd, hj⟩ := sep_split hd1 hd2 hdata
    refine ⟨String.ext hd, ?_⟩
    have hc1 : ∀ l ∈ a1.map String.data, l ≠ [] ∧ ('|' : Char) ∉ l := by
      intro l hl
      obtain ⟨s, hs, rfl⟩ := List.mem_map.mp hl
      exact ⟨fun h0 => (ha1 s hs).1 (String.ext h0), (ha1 s hs).2⟩
    have hc2 : ∀ l ∈ a2.map String.data, l ≠ [] ∧ ('|' : Char) ∉ l := by
      intro l hl
      obtain ⟨s, hs, rfl⟩ := List.mem_map.mp hl
      exact ⟨fun h0 => (ha2 s hs).1 (String.ext h0), (ha2 s hs).2⟩
    have hmap := joinChar_inj (a1.map String.data) (a2.map String.data) hc1 hc2 hj
    exact List.map_injective_iff.mpr (fun s t hst => String.ext hst) hmap
  · rintro ⟨rfl, rfl⟩
    rfl

/-- a closed instance of cacheKey_inj_of_sep_free on pipe-free
components. -/
theorem cacheKey_inj_of_sep_free_witness :
    cacheKey "a" ["b"] = cacheKey "a" ["b"] ↔
      ("a" : String) = "a" ∧ (["b"] : List String) = ["b"] :=
  cacheKey_inj_of_sep_free "a" "a" ["b"] ["b"] (by decide) (by decide)
    (by decide) (by decide)

end GoMcp
